import Mathlib

/-!
Shallow embedding of the epidemic-simulation frontend
(`src/frontend/script.js` and `src/frontend/realtime-chart.js`).

The JavaScript code advances a population of nodes through the
compartments healthy / infected / recovered / quarantined / deceased.
Every call to `Math.random()` is modelled by consuming one rational
number from an explicit oracle list (`nextRand`); a draw
`Math.random() < rate` becomes the comparison of the consumed rational
with the rate.  The in-place mutation order of the JavaScript loops is
reproduced exactly: transmission folds over the edge list updating the
node array as it goes, then progression maps over the node array in
order, threading the oracle.
-/

/-- Compartment of an individual (the `state` field of a node in `script.js`). -/
inductive NodeState
  | healthy
  | infected
  | recovered
  | quarantined
  | deceased
deriving DecidableEq

/-- A node of the simulation: `{id, state, infectionTime, quarantineTime, x, y,
originalX, originalY}` as managed by `script.js` (positions are normalized
coordinates; `originalX`/`originalY` are the saved pre-quarantine position,
`none` standing for JavaScript `undefined`). -/
structure Node where
  id : Nat
  state : NodeState
  infectionTime : Nat
  quarantineTime : Nat
  x : ℚ
  y : ℚ
  originalX : Option ℚ
  originalY : Option ℚ
deriving DecidableEq

/-- Convenience constructor: a node at the origin with no saved position. -/
def mkNode (id : Nat) (st : NodeState) (it qt : Nat) : Node :=
  ⟨id, st, it, qt, 0, 0, none, none⟩

/-- A contact edge `{source, target}` (indices into the node array). -/
structure Edge where
  source : Nat
  target : Nat
deriving DecidableEq

/-- The four probability sliders read by `startFallbackSimulation`. -/
structure Rates where
  infectionRate : ℚ
  recoveryRate : ℚ
  deathRate : ℚ
  quarantineRate : ℚ

/-- Consume one value from the randomness oracle (one `Math.random()` call).
An exhausted oracle yields `1`, making every `r < rate` draw fail for
rates in `[0,1]`. -/
def nextRand : List ℚ → ℚ × List ℚ
  | [] => (1, [])
  | r :: rest => (r, rest)

/-- Transmission over a single edge (`script.js` lines 522-539): if exactly one
endpoint is infected and the other healthy, draw once against
`infectionRate`; on success the healthy endpoint becomes infected with its
`infectionTime` reset to 0.  The node array is updated in place, so the
result of this edge is visible to later edges of the same step. -/
def infectEdge (r : Rates) (nodes : List Node) (e : Edge) (rand : List ℚ) :
    List Node × List ℚ :=
  match nodes[e.source]?, nodes[e.target]? with
  | some s, some t =>
    if (s.state = NodeState.infected ∧ t.state = NodeState.healthy) ∨
       (t.state = NodeState.infected ∧ s.state = NodeState.healthy) then
      if (nextRand rand).1 < r.infectionRate then
        if s.state = NodeState.healthy then
          (nodes.set e.source { s with state := NodeState.infected, infectionTime := 0 },
           (nextRand rand).2)
        else
          (nodes.set e.target { t with state := NodeState.infected, infectionTime := 0 },
           (nextRand rand).2)
      else (nodes, (nextRand rand).2)
    else (nodes, rand)
  | _, _ => (nodes, rand)

/-- The transmission phase: fold `infectEdge` over the edge list in order. -/
def transmissionPhase (r : Rates) (edges : List Edge) (nodes : List Node)
    (rand : List ℚ) : List Node × List ℚ :=
  edges.foldl (fun acc e => infectEdge r acc.1 e acc.2) (nodes, rand)

/-- The death/recovery check (`script.js` lines 555-561): if `infectionTime > 14`,
draw against `deathRate` (success: deceased), otherwise draw against
`recoveryRate` (success: recovered).  Mirroring the source, this check reads
only `infectionTime` and is applied whatever the current `state` field holds —
it runs even when the quarantine check of the same iteration has already set
the state to quarantined. -/
def deathRecoveryCheck (r : Rates) (n : Node) (rand : List ℚ) : Node × List ℚ :=
  if n.infectionTime > 14 then
    if (nextRand rand).1 < r.deathRate then
      ({ n with state := NodeState.deceased }, (nextRand rand).2)
    else
      if (nextRand (nextRand rand).2).1 < r.recoveryRate then
        ({ n with state := NodeState.recovered }, (nextRand (nextRand rand).2).2)
      else (n, (nextRand (nextRand rand).2).2)
  else (n, rand)

/-- Progression of a node that was infected at loop entry (`script.js`
lines 544-561), already carrying the incremented `infectionTime`: if
`infectionTime > 7` draw against `quarantineRate` (success: quarantined with
`quarantineTime` reset to 0), then in either case run the death/recovery
check. -/
def progressInfected (r : Rates) (n : Node) (rand : List ℚ) : Node × List ℚ :=
  if n.infectionTime > 7 then
    if (nextRand rand).1 < r.quarantineRate then
      deathRecoveryCheck r
        { n with state := NodeState.quarantined, quarantineTime := 0 }
        (nextRand rand).2
    else deathRecoveryCheck r n (nextRand rand).2
  else deathRecoveryCheck r n rand

/-- Progression of a node that was quarantined at loop entry (`script.js`
lines 562-572), already carrying the incremented `quarantineTime`: if
`quarantineTime > 14`, draw against `recoveryRate` (success: recovered). -/
def progressQuarantined (r : Rates) (n : Node) (rand : List ℚ) : Node × List ℚ :=
  if n.quarantineTime > 14 then
    if (nextRand rand).1 < r.recoveryRate then
      ({ n with state := NodeState.recovered }, (nextRand rand).2)
    else (n, (nextRand rand).2)
  else (n, rand)

/-- Per-node progression (`script.js` lines 541-573): infected nodes first
increment `infectionTime`, quarantined nodes increment `quarantineTime`;
all other states are untouched. -/
def progressNode (r : Rates) (n : Node) (rand : List ℚ) : Node × List ℚ :=
  if n.state = NodeState.infected then
    progressInfected r { n with infectionTime := n.infectionTime + 1 } rand
  else if n.state = NodeState.quarantined then
    progressQuarantined r { n with quarantineTime := n.quarantineTime + 1 } rand
  else (n, rand)

/-- The progression phase: apply `progressNode` to every node in order,
threading the randomness oracle. -/
def progressList (r : Rates) : List Node → List ℚ → List Node × List ℚ
  | [], rand => ([], rand)
  | n :: ns, rand =>
    ((progressNode r n rand).1 :: (progressList r ns (progressNode r n rand).2).1,
     (progressList r ns (progressNode r n rand).2).2)

/-- One iteration of `fallbackSimulationLoop` (`script.js` lines 519-600)
restricted to compartment dynamics: transmission over all edges, then
progression of all nodes, both acting on the same mutable node array. -/
def fallbackStep (r : Rates) (edges : List Edge) (nodes : List Node)
    (rand : List ℚ) : List Node × List ℚ :=
  progressList r (transmissionPhase r edges nodes rand).1
    (transmissionPhase r edges nodes rand).2

/-- Iterate `fallbackStep` for a given number of steps. -/
def fallbackRun (r : Rates) (edges : List Edge) :
    Nat → List Node × List ℚ → List Node × List ℚ
  | 0, s => s
  | k + 1, s => fallbackRun r edges k (fallbackStep r edges s.1 s.2)

/-- Per-compartment count: `simulation.nodes.filter(n => n.state === s).length`
(`script.js` lines 583-589 and 663-667). -/
def countState (s : NodeState) (nodes : List Node) : Nat :=
  (nodes.filter (fun n => n.state == s)).length

/-- A healthy node freshly infected by transmission. -/
def infectNode (n : Node) : Node :=
  { n with state := NodeState.infected, infectionTime := 0 }

/-! ### Lemmas about per-node progression -/

theorem progressNode_eq_self (r : Rates) (n : Node) (rand : List ℚ)
    (h1 : n.state ≠ NodeState.infected) (h2 : n.state ≠ NodeState.quarantined) :
    progressNode r n rand = (n, rand) := by
  unfold progressNode
  rw [if_neg h1, if_neg h2]

theorem deathRecoveryCheck_fields (r : Rates) (n : Node) (rand : List ℚ) :
    (deathRecoveryCheck r n rand).1.id = n.id ∧
    (deathRecoveryCheck r n rand).1.infectionTime = n.infectionTime ∧
    (deathRecoveryCheck r n rand).1.quarantineTime = n.quarantineTime := by
  unfold deathRecoveryCheck
  split_ifs <;> exact ⟨rfl, rfl, rfl⟩

theorem deathRecoveryCheck_state (r : Rates) (n : Node) (rand : List ℚ) :
    (deathRecoveryCheck r n rand).1.state = n.state ∨
    ((deathRecoveryCheck r n rand).1.state = NodeState.deceased ∨
     (deathRecoveryCheck r n rand).1.state = NodeState.recovered) ∧
      n.infectionTime > 14 := by
  unfold deathRecoveryCheck
  split_ifs with h1 h2 h3 <;> simp_all

theorem progressInfected_cases (r : Rates) (m : Node) (rand : List ℚ) :
    (progressInfected r m rand).1.infectionTime = m.infectionTime ∧
    ((progressInfected r m rand).1.state = m.state ∧
       (progressInfected r m rand).1.quarantineTime = m.quarantineTime ∨
     (progressInfected r m rand).1.state = NodeState.quarantined ∧
       (progressInfected r m rand).1.quarantineTime = 0 ∧ m.infectionTime > 7 ∨
     ((progressInfected r m rand).1.state = NodeState.deceased ∨
      (progressInfected r m rand).1.state = NodeState.recovered) ∧
       m.infectionTime > 14) := by
  unfold progressInfected
  split_ifs with h7 hq
  · obtain ⟨hid, hit, hqt⟩ :=
      deathRecoveryCheck_fields r
        { m with state := NodeState.quarantined, quarantineTime := 0 } (nextRand rand).2
    rcases deathRecoveryCheck_state r
        { m with state := NodeState.quarantined, quarantineTime := 0 } (nextRand rand).2 with
      hs | ⟨hs, h14⟩ <;> simp_all
  · obtain ⟨hid, hit, hqt⟩ := deathRecoveryCheck_fields r m (nextRand rand).2
    rcases deathRecoveryCheck_state r m (nextRand rand).2 with hs | ⟨hs, h14⟩ <;> simp_all
  · obtain ⟨hid, hit, hqt⟩ := deathRecoveryCheck_fields r m rand
    rcases deathRecoveryCheck_state r m rand with hs | ⟨hs, h14⟩ <;> simp_all

theorem progressNode_infected_cases (r : Rates) (n : Node) (rand : List ℚ)
    (h : n.state = NodeState.infected) :
    (progressNode r n rand).1.infectionTime = n.infectionTime + 1 ∧
    ((progressNode r n rand).1.state = NodeState.infected ∧
       (progressNode r n rand).1.quarantineTime = n.quarantineTime ∨
     (progressNode r n rand).1.state = NodeState.quarantined ∧
       (progressNode r n rand).1.quarantineTime = 0 ∧ n.infectionTime + 1 > 7 ∨
     ((progressNode r n rand).1.state = NodeState.deceased ∨
      (progressNode r n rand).1.state = NodeState.recovered) ∧
       n.infectionTime + 1 > 14) := by
  unfold progressNode
  rw [if_pos h]
  have := progressInfected_cases r { n with infectionTime := n.infectionTime + 1 } rand
  simp only at this
  simpa [h] using this

theorem progressNode_quarantined_cases (r : Rates) (n : Node) (rand : List ℚ)
    (h : n.state = NodeState.quarantined) :
    (progressNode r n rand).1.quarantineTime = n.quarantineTime + 1 ∧
    (progressNode r n rand).1.infectionTime = n.infectionTime ∧
    ((progressNode r n rand).1.state = NodeState.quarantined ∨
     (progressNode r n rand).1.state = NodeState.recovered ∧
       n.quarantineTime + 1 > 14) := by
  unfold progressNode progressQuarantined
  rw [if_neg (by simp [h]), if_pos h]
  split_ifs with h14 hr <;> simp_all

theorem progressNode_healthy_source (r : Rates) (n : Node) (rand : List ℚ)
    (h : (progressNode r n rand).1.state = NodeState.healthy) :
    n.state = NodeState.healthy := by
  by_cases hi : n.state = NodeState.infected
  · rcases (progressNode_infected_cases r n rand hi).2 with
      ⟨hs, _⟩ | ⟨hs, _, _⟩ | ⟨hs | hs, _⟩ <;> simp_all
  · by_cases hq : n.state = NodeState.quarantined
    · rcases (progressNode_quarantined_cases r n rand hq).2.2 with hs | ⟨hs, _⟩ <;> simp_all
    · rw [progressNode_eq_self r n rand hi hq] at h
      exact h

theorem progressNode_early_infected (r : Rates) (n : Node) (rand : List ℚ)
    (h : n.state = NodeState.infected) (h7 : ¬ n.infectionTime + 1 > 7) :
    progressNode r n rand = ({ n with infectionTime := n.infectionTime + 1 }, rand) := by
  unfold progressNode progressInfected deathRecoveryCheck
  rw [if_pos h]
  simp only
  rw [if_neg h7, if_neg (by omega)]

/-! ### Lemmas about the transmission phase -/

/-- What one step of transmission can do to the node at a fixed index:
leave it alone, or (if it was healthy) freshly infect it. -/
def TransRel (before after : List Node) : Prop :=
  ∀ (i : Nat) (n : Node), before[i]? = some n →
    after[i]? = some n ∨
    (n.state = NodeState.healthy ∧ after[i]? = some (infectNode n))

theorem transRel_refl (l : List Node) : TransRel l l :=
  fun _ _ h => Or.inl h

theorem transRel_trans {a b c : List Node} (h1 : TransRel a b) (h2 : TransRel b c) :
    TransRel a c := by
  intro i n hn
  rcases h1 i n hn with h | ⟨hh, h⟩
  · exact h2 i n h
  · rcases h2 i _ h with h' | ⟨hh', h'⟩
    · exact Or.inr ⟨hh, h'⟩
    · exact absurd hh' (by simp [infectNode])

theorem transRel_set (l : List Node) (k : Nat) (m : Node) (hk : l[k]? = some m)
    (hm : m.state = NodeState.healthy) :
    TransRel l (l.set k (infectNode m)) := by
  intro i n hn
  by_cases hik : k = i
  · subst hik
    have hlt : k < l.length := by
      rcases List.getElem?_eq_some.mp hn with ⟨h, _⟩
      exact h
    have : n = m := by rw [hn] at hk; exact Option.some_inj.mp hk
    subst this
    exact Or.inr ⟨hm, List.getElem?_set_eq_of_lt _ hlt⟩
  · rw [List.getElem?_set_ne hik]
    exact Or.inl hn

theorem infectEdge_transRel (r : Rates) (nodes : List Node) (e : Edge)
    (rand : List ℚ) : TransRel nodes (infectEdge r nodes e rand).1 := by
  unfold infectEdge
  split
  next s t hs ht =>
    split_ifs with hcond hdraw hsh
    · exact transRel_set nodes e.source s hs hsh
    · have hth : t.state = NodeState.healthy := by
        rcases hcond with ⟨_, h⟩ | ⟨_, h⟩
        · exact h
        · exact absurd h hsh
      exact transRel_set nodes e.target t ht hth
    · exact transRel_refl nodes
    · exact transRel_refl nodes
  next => exact transRel_refl nodes

theorem transmissionPhase_cons (r : Rates) (e : Edge) (es : List Edge)
    (nodes : List Node) (rand : List ℚ) :
    transmissionPhase r (e :: es) nodes rand =
      transmissionPhase r es (infectEdge r nodes e rand).1 (infectEdge r nodes e rand).2 := by
  simp [transmissionPhase]

theorem transmissionPhase_transRel (r : Rates) (edges : List Edge)
    (nodes : List Node) (rand : List ℚ) :
    TransRel nodes (transmissionPhase r edges nodes rand).1 := by
  induction edges generalizing nodes rand with
  | nil => exact transRel_refl nodes
  | cons e es ih =>
    rw [transmissionPhase_cons]
    exact transRel_trans (infectEdge_transRel r nodes e rand)
      (ih (infectEdge r nodes e rand).1 (infectEdge r nodes e rand).2)

/-! ### Lemmas about the progression phase -/

theorem progressList_getElem? (r : Rates) (nodes : List Node) (rand : List ℚ)
    (i : Nat) (n : Node) (hn : nodes[i]? = some n) :
    ∃ rd, (progressList r nodes rand).1[i]? = some (progressNode r n rd).1 := by
  induction nodes generalizing rand i with
  | nil => simp at hn
  | cons m ms ih =>
    cases i with
    | zero =>
      have : m = n := by simpa using hn
      subst this
      exact ⟨rand, by simp [progressList]⟩
    | succ j =>
      have hj : ms[j]? = some n := by simpa using hn
      obtain ⟨rd, hrd⟩ := ih (progressNode r m rand).2 j hj
      exact ⟨rd, by simpa [progressList] using hrd⟩

/-! ### Healthy count is non-increasing -/

/-- Pointwise relation between a node array and its successor: a node that is
healthy afterwards was healthy before (no transition produces healthy). -/
def HealthyRel (a b : Node) : Prop :=
  b.state = NodeState.healthy → a.state = NodeState.healthy

theorem healthyRel_refl (l : List Node) : List.Forall₂ HealthyRel l l := by
  induction l with
  | nil => exact List.Forall₂.nil
  | cons n ns ih => exact List.Forall₂.cons (fun h => h) ih

theorem healthyRel_trans {a b c : List Node} (h1 : List.Forall₂ HealthyRel a b)
    (h2 : List.Forall₂ HealthyRel b c) : List.Forall₂ HealthyRel a c := by
  induction h1 generalizing c with
  | nil => cases h2; exact List.Forall₂.nil
  | cons hab h1' ih =>
    cases h2 with
    | cons hbc h2' => exact List.Forall₂.cons (fun h => hab (hbc h)) (ih h2')

theorem healthyRel_set (l : List Node) (k : Nat) (m : Node)
    (hm : m.state ≠ NodeState.healthy) : List.Forall₂ HealthyRel l (l.set k m) := by
  induction l generalizing k with
  | nil => exact List.Forall₂.nil
  | cons n ns ih =>
    cases k with
    | zero => exact List.Forall₂.cons (fun h => absurd h hm) (healthyRel_refl ns)
    | succ j => exact List.Forall₂.cons (fun h => h) (ih j)

theorem countState_le_of_healthyRel {a b : List Node}
    (h : List.Forall₂ HealthyRel a b) :
    countState NodeState.healthy b ≤ countState NodeState.healthy a := by
  induction h with
  | nil => exact Nat.le_refl 0
  | cons hr h' ih =>
    rename_i x y l1 l2
    by_cases hy : y.state = NodeState.healthy
    · have hx : x.state = NodeState.healthy := hr hy
      simpa [countState, List.filter_cons, hy, hx] using Nat.succ_le_succ ih
    · have h1 : countState NodeState.healthy (y :: l2) = countState NodeState.healthy l2 := by
        simp [countState, List.filter_cons, hy]

      have h2 : countState NodeState.healthy l1 ≤ countState NodeState.healthy (x :: l1) := by
        by_cases hx : x.state = NodeState.healthy <;>
          simp [countState, List.filter_cons, hx, Nat.le_succ]
      omega

theorem infectEdge_healthyRel (r : Rates) (nodes : List Node) (e : Edge)
    (rand : List ℚ) : List.Forall₂ HealthyRel nodes (infectEdge r nodes e rand).1 := by
  unfold infectEdge
  split
  next s t hs ht =>
    split_ifs with hcond hdraw hsh
    · exact healthyRel_set nodes e.source _ (by simp)
    · exact healthyRel_set nodes e.target _ (by simp)
    · exact healthyRel_refl nodes
    · exact healthyRel_refl nodes
  next => exact healthyRel_refl nodes

theorem transmissionPhase_healthyRel (r : Rates) (edges : List Edge)
    (nodes : List Node) (rand : List ℚ) :
    List.Forall₂ HealthyRel nodes (transmissionPhase r edges nodes rand).1 := by
  induction edges generalizing nodes rand with
  | nil => exact healthyRel_refl nodes
  | cons e es ih =>
    rw [transmissionPhase_cons]
    exact healthyRel_trans (infectEdge_healthyRel r nodes e rand)
      (ih (infectEdge r nodes e rand).1 (infectEdge r nodes e rand).2)

theorem progressList_healthyRel (r : Rates) (nodes : List Node) (rand : List ℚ) :
    List.Forall₂ HealthyRel nodes (progressList r nodes rand).1 := by
  induction nodes generalizing rand with
  | nil => exact List.Forall₂.nil
  | cons n ns ih =>
    exact List.Forall₂.cons (progressNode_healthy_source r n rand) (ih _)

theorem fallbackStep_healthyRel (r : Rates) (edges : List Edge)
    (nodes : List Node) (rand : List ℚ) :
    List.Forall₂ HealthyRel nodes (fallbackStep r edges nodes rand).1 :=
  healthyRel_trans (transmissionPhase_healthyRel r edges nodes rand)
    (progressList_healthyRel r _ _)

theorem fallbackStep_length (r : Rates) (edges : List Edge)
    (nodes : List Node) (rand : List ℚ) :
    (fallbackStep r edges nodes rand).1.length = nodes.length :=
  ((fallbackStep_healthyRel r edges nodes rand).length_eq).symm

/-! ### The five compartment counts partition the population -/

theorem countState_partition (l : List Node) :
    countState NodeState.healthy l + countState NodeState.infected l +
      countState NodeState.recovered l + countState NodeState.quarantined l +
      countState NodeState.deceased l = l.length := by
  induction l with
  | nil => rfl
  | cons n ns ih =>
    cases h : n.state <;>
      simp only [countState, List.filter_cons, h, List.length_cons] at * <;>
      simp_all <;> omega

theorem fallbackRun_length (r : Rates) (edges : List Edge) (k : Nat)
    (s : List Node × List ℚ) :
    (fallbackRun r edges k s).1.length = s.1.length := by
  induction k generalizing s with
  | zero => rfl
  | succ j ih =>
    rw [fallbackRun]
    rw [ih]
    exact fallbackStep_length r edges s.1 s.2

/-! ### Claim theorems for the epidemic state machine -/

/-- C10: in the local fallback simulation the number of healthy individuals
never increases across a step — no transition of `fallbackSimulationLoop`
assigns the healthy compartment. -/
theorem healthy_count_nonincreasing (r : Rates) (edges : List Edge)
    (nodes : List Node) (rand : List ℚ) :
    countState NodeState.healthy (fallbackStep r edges nodes rand).1 ≤
      countState NodeState.healthy nodes :=
  countState_le_of_healthyRel (fallbackStep_healthyRel r edges nodes rand)

/-- C3: at every step of the local simulation the five per-compartment counts
sum to the population size — no individual is double-counted or lost. -/
theorem compartment_counts_sum (r : Rates) (edges : List Edge) (nodes : List Node)
    (rand : List ℚ) (k : Nat) :
    countState NodeState.healthy (fallbackRun r edges k (nodes, rand)).1 +
      countState NodeState.infected (fallbackRun r edges k (nodes, rand)).1 +
      countState NodeState.recovered (fallbackRun r edges k (nodes, rand)).1 +
      countState NodeState.quarantined (fallbackRun r edges k (nodes, rand)).1 +
      countState NodeState.deceased (fallbackRun r edges k (nodes, rand)).1 =
      nodes.length := by
  rw [countState_partition]
  exact fallbackRun_length r edges k (nodes, rand)

/-- C4: deceased and recovered are absorbing — a node in one of these
compartments is completely untouched by any number of further steps. -/
theorem deceased_recovered_absorbing (r : Rates) (edges : List Edge)
    (nodes : List Node) (rand : List ℚ) (k i : Nat) (n : Node)
    (hn : nodes[i]? = some n)
    (h : n.state = NodeState.deceased ∨ n.state = NodeState.recovered) :
    (fallbackRun r edges k (nodes, rand)).1[i]? = some n := by
  induction k generalizing nodes rand with
  | zero => exact hn
  | succ j ih =>
    rw [fallbackRun]
    have hnh : n.state ≠ NodeState.healthy := by rcases h with h | h <;> simp [h]
    have hni : n.state ≠ NodeState.infected := by rcases h with h | h <;> simp [h]
    have hnq : n.state ≠ NodeState.quarantined := by rcases h with h | h <;> simp [h]
    have hmid : (transmissionPhase r edges nodes rand).1[i]? = some n := by
      rcases transmissionPhase_transRel r edges nodes rand i n hn with h1 | ⟨hh, _⟩
      · exact h1
      · exact absurd hh hnh
    obtain ⟨rd, hrd⟩ :=
      progressList_getElem? r (transmissionPhase r edges nodes rand).1
        (transmissionPhase r edges nodes rand).2 i n hmid
    rw [progressNode_eq_self r n rd hni hnq] at hrd
    exact ih _ _ hrd

/-- C5: no direct healthy-to-quarantined transition — in one step a healthy
node can only stay healthy or become infected; a node that newly ends up
quarantined was infected with (incremented) infection time above 7; and a
quarantined node only becomes recovered once its (incremented) quarantine
time exceeds 14. -/
theorem quarantine_entry_exit (r : Rates) (edges : List Edge) (nodes : List Node)
    (rand : List ℚ) (i : Nat) (n n' : Node)
    (hn : nodes[i]? = some n)
    (hn' : (fallbackStep r edges nodes rand).1[i]? = some n') :
    (n.state = NodeState.healthy →
      n'.state = NodeState.healthy ∨ n'.state = NodeState.infected) ∧
    (n'.state = NodeState.quarantined → n.state ≠ NodeState.quarantined →
      n.state = NodeState.infected ∧ n'.infectionTime > 7) ∧
    (n.state = NodeState.quarantined → n'.state = NodeState.recovered →
      n'.quarantineTime > 14) := by
  rcases transmissionPhase_transRel r edges nodes rand i n hn with hmid | ⟨hh, hmid⟩
  · -- transmission left the node unchanged
    obtain ⟨rd, hrd⟩ :=
      progressList_getElem? r (transmissionPhase r edges nodes rand).1
        (transmissionPhase r edges nodes rand).2 i n hmid
    rw [fallbackStep, hrd] at hn'
    have hn'eq : n' = (progressNode r n rd).1 := Option.some_inj.mp hn'.symm
    subst hn'eq
    refine ⟨?_, ?_, ?_⟩
    · intro hhealthy
      rw [progressNode_eq_self r n rd (by simp [hhealthy]) (by simp [hhealthy])]
      exact Or.inl hhealthy
    · intro hq' hnq
      by_cases hi : n.state = NodeState.infected
      · obtain ⟨hit, hcases⟩ := progressNode_infected_cases r n rd hi
        refine ⟨hi, ?_⟩
        rcases hcases with ⟨hs, _⟩ | ⟨hs, _, h7⟩ | ⟨hs | hs, _⟩
        · simp_all
        · omega
        · simp_all
        · simp_all
      · by_cases hqq : n.state = NodeState.quarantined
        · exact absurd hqq hnq
        · rw [progressNode_eq_self r n rd hi hqq] at hq'
          exact absurd hq' hnq
    · intro hq hr'
      obtain ⟨hqt, _, hcases⟩ := progressNode_quarantined_cases r n rd hq
      rcases hcases with hs | ⟨hs, h14⟩
      · simp_all
      · omega
  · -- transmission freshly infected the (healthy) node
    obtain ⟨rd, hrd⟩ :=
      progressList_getElem? r (transmissionPhase r edges nodes rand).1
        (transmissionPhase r edges nodes rand).2 i (infectNode n) hmid
    rw [fallbackStep, hrd] at hn'
    rw [progressNode_early_infected r (infectNode n) rd (by simp [infectNode])
      (by simp [infectNode])] at hn'
    have hn'eq : n' = { infectNode n with infectionTime := 1 } :=
      Option.some_inj.mp hn'.symm
    subst hn'eq
    refine ⟨?_, ?_, ?_⟩
    · intro _
      exact Or.inr (by simp [infectNode])
    · intro hq' _
      exact absurd hq' (by simp [infectNode])
    · intro hq _
      rw [hh] at hq
      exact absurd hq (by decide)

/-- C4 witness: a concrete deceased node is untouched by two steps. -/
theorem deceased_recovered_absorbing_witness :
    [mkNode 0 NodeState.deceased 3 0][0]? = some (mkNode 0 NodeState.deceased 3 0) ∧
    (mkNode 0 NodeState.deceased 3 0).state = NodeState.deceased ∧
    (fallbackRun ⟨1, 1, 1, 1⟩ [] 2 ([mkNode 0 NodeState.deceased 3 0], [0, 0])).1[0]? =
      some (mkNode 0 NodeState.deceased 3 0) :=
  ⟨by decide, by decide,
    deceased_recovered_absorbing ⟨1, 1, 1, 1⟩ [] [mkNode 0 NodeState.deceased 3 0]
      [0, 0] 2 0 (mkNode 0 NodeState.deceased 3 0) (by decide) (Or.inl (by decide))⟩

/-- C5 witness: the per-step transition restrictions evaluated on a concrete
one-node population. -/
theorem quarantine_entry_exit_witness :
    [mkNode 0 NodeState.healthy 0 0][0]? = some (mkNode 0 NodeState.healthy 0 0) ∧
    (fallbackStep ⟨1, 1, 1, 1⟩ [] [mkNode 0 NodeState.healthy 0 0] []).1[0]? =
      some (mkNode 0 NodeState.healthy 0 0) ∧
    ((mkNode 0 NodeState.healthy 0 0).state = NodeState.healthy →
      (mkNode 0 NodeState.healthy 0 0).state = NodeState.healthy ∨
      (mkNode 0 NodeState.healthy 0 0).state = NodeState.infected) :=
  ⟨by decide, by decide,
    (quarantine_entry_exit ⟨1, 1, 1, 1⟩ [] [mkNode 0 NodeState.healthy 0 0] [] 0
      (mkNode 0 NodeState.healthy 0 0) (mkNode 0 NodeState.healthy 0 0)
      (by decide) (by decide)).1⟩

/-- C1 counterexample: with `quarantineRate = 1` every quarantine draw
succeeds, so in the step below the node (infected, `infectionTime` 14 → 15)
is moved to quarantined with `quarantineTime` reset to 0 — yet the step
leaves it deceased (first conjunct), because the death/recovery check of
`fallbackSimulationLoop` runs regardless of the state change made by the
quarantine check in the same iteration.  The second conjunct shows the same
input with `deathRate = 0` and `recoveryRate = 0`: the node ends the step
quarantined, confirming that the quarantine draw did move it out of
infected before the death draw overrode it. -/
theorem quarantine_death_same_step_counterexample :
    (fallbackStep ⟨0, 0, 1, 1⟩ [] [mkNode 0 NodeState.infected 14 5] [0, 0]).1 =
      [⟨0, NodeState.deceased, 15, 0, 0, 0, none, none⟩] ∧
    (fallbackStep ⟨0, 0, 0, 1⟩ [] [mkNode 0 NodeState.infected 14 5] [0, 0, 0]).1 =
      [⟨0, NodeState.quarantined, 15, 0, 0, 0, none, none⟩] := by
  constructor <;> decide

/-- C1 amended: the quarantine check is applied before the death/recovery
check, but the death/recovery check is NOT conditioned on the node still
being infected — whenever the incremented infection time exceeds 14 and the
death draw succeeds, the node ends the step deceased even if the quarantine
draw (consumed first, from the same oracle) has just moved it to
quarantined; the reset `quarantineTime = 0` left behind witnesses that the
quarantine assignment did happen. -/
theorem quarantine_then_death_override (r : Rates) (n : Node) (r1 r2 : ℚ)
    (rest : List ℚ)
    (hstate : n.state = NodeState.infected)
    (h14 : n.infectionTime + 1 > 14)
    (hq : r1 < r.quarantineRate)
    (hd : r2 < r.deathRate) :
    (progressNode r n (r1 :: r2 :: rest)).1.state = NodeState.deceased ∧
    (progressNode r n (r1 :: r2 :: rest)).1.quarantineTime = 0 := by
  have h7 : n.infectionTime + 1 > 7 := by omega
  simp [progressNode, progressInfected, deathRecoveryCheck, nextRand, hstate,
    h7, h14, hq, hd]

/-- C1 amended witness: concrete evaluation of the override. -/
theorem quarantine_then_death_override_witness :
    (mkNode 0 NodeState.infected 14 5).state = NodeState.infected ∧
    (mkNode 0 NodeState.infected 14 5).infectionTime + 1 > 14 ∧
    (0 : ℚ) < 1 ∧
    (progressNode ⟨0, 0, 1, 1⟩ (mkNode 0 NodeState.infected 14 5) [0, 0]).1.state =
      NodeState.deceased ∧
    (progressNode ⟨0, 0, 1, 1⟩ (mkNode 0 NodeState.infected 14 5) [0, 0]).1.quarantineTime =
      0 :=
  ⟨by decide, by decide, by decide,
    (quarantine_then_death_override ⟨0, 0, 1, 1⟩ (mkNode 0 NodeState.infected 14 5)
      0 0 [] (by decide) (by decide) (by decide) (by decide)).1,
    (quarantine_then_death_override ⟨0, 0, 1, 1⟩ (mkNode 0 NodeState.infected 14 5)
      0 0 [] (by decide) (by decide) (by decide) (by decide)).2⟩

/-- C2 counterexample: the step is NOT computed from a snapshot of the
previous step's compartments.  In the chain 0-1-2 with only node 0 infected
and `infectionRate = 1`, node 1 is infected by the first edge and then — in
the same step — infects node 2 over the second edge; moreover node 1's
`infectionTime` is already incremented to 1 by the progression loop of that
same step. -/
theorem snapshot_counterexample :
    ((fallbackStep ⟨1, 0, 0, 0⟩ [⟨0, 1⟩, ⟨1, 2⟩]
        [mkNode 0 NodeState.infected 3 0, mkNode 1 NodeState.healthy 0 0,
         mkNode 2 NodeState.healthy 0 0] [0, 0]).1.map
      (fun n => (n.state, n.infectionTime))) =
      [(NodeState.infected, 4), (NodeState.infected, 1), (NodeState.infected, 1)] := by
  decide

/-- C2 amended: each step updates the node array in place, sequentially —
a compartment change made during a step IS visible to the remaining
transmission and progression decisions of the same step.  For any rates
with a positive infection probability, in the chain 0-1-2 with only node 0
infected, one step infects node 2 through node 1 (which was itself infected
earlier in the same step), and node 1's infection-time counter is already
incremented in that same step. -/
theorem instep_cascade (r : Rates) (h : 0 < r.infectionRate) :
    ((fallbackStep r [⟨0, 1⟩, ⟨1, 2⟩]
        [mkNode 0 NodeState.infected 0 0, mkNode 1 NodeState.healthy 0 0,
         mkNode 2 NodeState.healthy 0 0] [0, 0]).1.map
      (fun n => (n.state, n.infectionTime))) =
      [(NodeState.infected, 1), (NodeState.infected, 1), (NodeState.infected, 1)] := by
  simp [fallbackStep, transmissionPhase, infectEdge, progressList, progressNode,
    progressInfected, deathRecoveryCheck, progressQuarantined, nextRand, mkNode, h]

/-- C2 amended witness: the cascade evaluated at `infectionRate = 1`. -/
theorem instep_cascade_witness :
    (0 : ℚ) < 1 ∧
    ((fallbackStep ⟨1, 0, 0, 0⟩ [⟨0, 1⟩, ⟨1, 2⟩]
        [mkNode 0 NodeState.infected 0 0, mkNode 1 NodeState.healthy 0 0,
         mkNode 2 NodeState.healthy 0 0] [0, 0]).1.map
      (fun n => (n.state, n.infectionTime))) =
      [(NodeState.infected, 1), (NodeState.infected, 1), (NodeState.infected, 1)] :=
  ⟨by decide, instep_cascade ⟨1, 0, 0, 0⟩ (by decide)⟩

/-! ### Telemetry window (`RealtimeChart` in `realtime-chart.js` / `script.js`) -/

/-- The per-step statistics passed to `addDataPoint`; `quarantined` and
`deceased` may be absent in legacy-format inputs (`stats.quarantined || 0`). -/
structure StatsMsg where
  healthy : Nat
  infected : Nat
  recovered : Nat
  quarantined : Option Nat
  deceased : Option Nat
deriving DecidableEq

/-- The `this.data` object of `RealtimeChart`: one series per compartment
plus the step timestamps. -/
structure ChartData where
  healthy : List Nat
  infected : List Nat
  recovered : List Nat
  quarantined : List Nat
  deceased : List Nat
  timestamps : List Nat
deriving DecidableEq

/-- The freshly-constructed (or cleared) chart data: all series empty. -/
def emptyChartData : ChartData := ⟨[], [], [], [], [], []⟩

/-- `RealtimeChart.clear()`: replace `this.data` with empty series. -/
def clearChart (_d : ChartData) : ChartData := emptyChartData

/-- `RealtimeChart.addDataPoint(stats, step)`: push one value per series
(`push` appends at the end), then, if the healthy series now exceeds
`maxDataPoints`, shift every series once (drop the oldest, front, entry). -/
def addDataPoint (maxDataPoints : Nat) (d : ChartData) (stats : StatsMsg)
    (step : Nat) : ChartData :=
  let pushed : ChartData :=
    ⟨d.healthy ++ [stats.healthy], d.infected ++ [stats.infected],
     d.recovered ++ [stats.recovered], d.quarantined ++ [stats.quarantined.getD 0],
     d.deceased ++ [stats.deceased.getD 0], d.timestamps ++ [step]⟩
  if pushed.healthy.length > maxDataPoints then
    ⟨pushed.healthy.tail, pushed.infected.tail, pushed.recovered.tail,
     pushed.quarantined.tail, pushed.deceased.tail, pushed.timestamps.tail⟩
  else pushed

/-- Record a whole sequence of (stats, step) data points in order. -/
def recordAll (maxDataPoints : Nat) (d : ChartData)
    (records : List (StatsMsg × Nat)) : ChartData :=
  records.foldl (fun d rec => addDataPoint maxDataPoints d rec.1 rec.2) d

/-- The suffix of the last `W` elements of a list (the most recent `W`
recorded values, in order). -/
def lastN (W : Nat) (l : List Nat) : List Nat := l.drop (l.length - W)

/-- One series under push-then-evict, in isolation. -/
def pushEvict (W : Nat) (l : List Nat) (a : Nat) : List Nat :=
  if (l ++ [a]).length > W then (l ++ [a]).tail else l ++ [a]

theorem pushEvict_length_le (W : Nat) (l : List Nat) (a : Nat)
    (h : l.length ≤ W) : (pushEvict W l a).length ≤ W := by
  unfold pushEvict
  split_ifs with h1
  · simp_all
  · simp_all

theorem lastN_length (W : Nat) (l : List Nat) :
    (lastN W l).length = min l.length W := by
  simp [lastN]
  omega

theorem lastN_tail_append (W : Nat) (x vs : List Nat) (h : W + 1 ≤ x.length) :
    lastN W (x.tail ++ vs) = lastN W (x ++ vs) := by
  cases x with
  | nil => simp at h
  | cons b x' =>
    simp only [List.tail_cons, lastN, List.length_append, List.length_cons]
    have harith : x'.length + 1 + vs.length - W = (x'.length + vs.length - W) + 1 := by
      simp at h
      omega
    rw [List.cons_append, harith, List.drop_succ_cons]

theorem foldl_pushEvict (W : Nat) (vals l : List Nat) (h : l.length ≤ W) :
    List.foldl (pushEvict W) l vals = lastN W (l ++ vals) := by
  induction vals generalizing l with
  | nil =>
    have h0 : l.length - W = 0 := Nat.sub_eq_zero_of_le h
    simp [lastN, h0]
  | cons a vs ih =>
    rw [List.foldl_cons, ih (pushEvict W l a) (pushEvict_length_le W l a h)]
    by_cases h1 : (l ++ [a]).length > W
    · have hlen : l.length = W := by simp at h1; omega
      have hpe : pushEvict W l a = (l ++ [a]).tail := by unfold pushEvict; rw [if_pos h1]
      rw [hpe, lastN_tail_append W (l ++ [a]) vs (by simp [hlen])]
      simp
    · have hpe : pushEvict W l a = l ++ [a] := by unfold pushEvict; rw [if_neg h1]
      rw [hpe]
      simp

theorem pushEvict_length (W : Nat) (l : List Nat) (a : Nat) :
    (pushEvict W l a).length = if l.length + 1 > W then l.length else l.length + 1 := by
  unfold pushEvict
  simp only [List.length_append, List.length_cons, List.length_nil, Nat.zero_add]
  split_ifs with h1 <;> simp

theorem addDataPoint_components (W : Nat) (d : ChartData) (s : StatsMsg) (t : Nat)
    (h2 : d.infected.length = d.healthy.length)
    (h3 : d.recovered.length = d.healthy.length)
    (h4 : d.quarantined.length = d.healthy.length)
    (h5 : d.deceased.length = d.healthy.length)
    (h6 : d.timestamps.length = d.healthy.length) :
    addDataPoint W d s t =
      ⟨pushEvict W d.healthy s.healthy, pushEvict W d.infected s.infected,
       pushEvict W d.recovered s.recovered,
       pushEvict W d.quarantined (s.quarantined.getD 0),
       pushEvict W d.deceased (s.deceased.getD 0),
       pushEvict W d.timestamps t⟩ := by
  unfold addDataPoint pushEvict
  simp only [List.length_append, List.length_cons, List.length_nil, Nat.zero_add,
    h2, h3, h4, h5, h6]
  split_ifs with h1 <;> rfl

theorem recordAll_components (W : Nat) (records : List (StatsMsg × Nat)) :
    ∀ d : ChartData,
      d.infected.length = d.healthy.length →
      d.recovered.length = d.healthy.length →
      d.quarantined.length = d.healthy.length →
      d.deceased.length = d.healthy.length →
      d.timestamps.length = d.healthy.length →
      recordAll W d records =
        ⟨List.foldl (pushEvict W) d.healthy (records.map (fun p => p.1.healthy)),
         List.foldl (pushEvict W) d.infected (records.map (fun p => p.1.infected)),
         List.foldl (pushEvict W) d.recovered (records.map (fun p => p.1.recovered)),
         List.foldl (pushEvict W) d.quarantined
           (records.map (fun p => p.1.quarantined.getD 0)),
         List.foldl (pushEvict W) d.deceased
           (records.map (fun p => p.1.deceased.getD 0)),
         List.foldl (pushEvict W) d.timestamps (records.map (fun p => p.2))⟩ := by
  induction records with
  | nil => intro d _ _ _ _ _; rfl
  | cons p ps ih =>
    intro d h2 h3 h4 h5 h6
    have hstep := addDataPoint_components W d p.1 p.2 h2 h3 h4 h5 h6
    have hrec : recordAll W d (p :: ps) =
        recordAll W (addDataPoint W d p.1 p.2) ps := rfl
    rw [hrec, hstep]
    rw [ih _ (by simp [pushEvict_length, h2]) (by simp [pushEvict_length, h3])
      (by simp [pushEvict_length, h4]) (by simp [pushEvict_length, h5])
      (by simp [pushEvict_length, h6])]
    rfl

/-- C6: the telemetry window never holds more than `maxDataPoints` entries:
starting from the empty chart, after any sequence of `addDataPoint` calls
each series is exactly the suffix of the most recent `W` recorded values in
order (so one point is appended per call and the oldest is evicted FIFO once
the window is full), the window length is `min (number of records) W`, and
`clear()` resets the window to the empty chart (length 0). -/
theorem telemetry_window (W : Nat) (records : List (StatsMsg × Nat)) (d : ChartData) :
    (recordAll W emptyChartData records).healthy =
      lastN W (records.map (fun p => p.1.healthy)) ∧
    (recordAll W emptyChartData records).infected =
      lastN W (records.map (fun p => p.1.infected)) ∧
    (recordAll W emptyChartData records).recovered =
      lastN W (records.map (fun p => p.1.recovered)) ∧
    (recordAll W emptyChartData records).quarantined =
      lastN W (records.map (fun p => p.1.quarantined.getD 0)) ∧
    (recordAll W emptyChartData records).deceased =
      lastN W (records.map (fun p => p.1.deceased.getD 0)) ∧
    (recordAll W emptyChartData records).timestamps =
      lastN W (records.map (fun p => p.2)) ∧
    (recordAll W emptyChartData records).timestamps.length = min records.length W ∧
    clearChart d = emptyChartData ∧
    (clearChart d).timestamps.length = 0 := by
  have hcomp := recordAll_components W records emptyChartData rfl rfl rfl rfl rfl
  have hW : (emptyChartData).healthy.length ≤ W := by simp [emptyChartData]
  rw [hcomp]
  refine ⟨?_, ?_, ?_, ?_, ?_, ?_, ?_, rfl, rfl⟩ <;>
    simp [emptyChartData, foldl_pushEvict W _ [] (by simp), lastN_length]

/-! ### Quarantine relocation animation (`updateAnimations` in `script.js`) -/

/-- An animation record stored in `nodeAnimations`: start and target
positions, start timestamp and duration (`script.js` lines 691-698). -/
structure Anim where
  startX : ℚ
  startY : ℚ
  targetX : ℚ
  targetY : ℚ
  startTime : ℚ
  duration : ℚ
deriving DecidableEq

/-- The cubic ease-out of `updateAnimations` (`script.js` line 729):
`easeProgress = 1 - Math.pow(1 - progress, 3)`. -/
def easeOutCubic (progress : ℚ) : ℚ := 1 - (1 - progress) ^ 3

/-- Clamped progress of an animation (`script.js` line 726):
`Math.min(elapsed / duration, 1)`. -/
def animProgress (a : Anim) (now : ℚ) : ℚ :=
  min ((now - a.startTime) / a.duration) 1

/-- Linear interpolation by the eased progress (`script.js` lines 731-732):
`start + (target - start) * easeProgress`. -/
def animPosition (s t p : ℚ) : ℚ := s + (t - s) * easeOutCubic p

/-- Position of an animated node at a given time (`script.js` lines 725-736):
interpolated by the eased clamped progress, snapped exactly to the target
once progress reaches 1. -/
def nodePosAt (a : Anim) (now : ℚ) : ℚ × ℚ :=
  if animProgress a now ≥ 1 then (a.targetX, a.targetY)
  else (animPosition a.startX a.targetX (animProgress a now),
        animPosition a.startY a.targetY (animProgress a now))

theorem easeOutCubic_mono (p q : ℚ) (hp : 0 ≤ p) (hpq : p ≤ q) (hq : q ≤ 1) :
    easeOutCubic p ≤ easeOutCubic q := by
  unfold easeOutCubic
  have h1 : 0 ≤ 1 - q := by linarith
  have h2 : 1 - q ≤ 1 - p := by linarith
  have h3 := pow_le_pow_left₀ h1 h2 3
  linarith

/-- C7: the quarantine relocation easing is the cubic ease-out
`progress ↦ 1 - (1 - progress)³` with the position linearly interpolated by
the eased progress: the position at progress 0 is the start, at progress 1
it is exactly the target (and the node snaps exactly to the target whenever
the clamped progress reaches 1), and along each axis the interpolated
position is monotonic in progress. -/
theorem animation_easing (a : Anim) (s t p q now : ℚ)
    (hp : 0 ≤ p) (hpq : p ≤ q) (hq : q ≤ 1) :
    animPosition s t 0 = s ∧
    animPosition s t 1 = t ∧
    nodePosAt a a.startTime = (a.startX, a.startY) ∧
    (1 ≤ (now - a.startTime) / a.duration →
      nodePosAt a now = (a.targetX, a.targetY)) ∧
    (s ≤ t → animPosition s t p ≤ animPosition s t q) ∧
    (t ≤ s → animPosition s t q ≤ animPosition s t p) := by
  refine ⟨?_, ?_, ?_, ?_, ?_, ?_⟩
  · simp [animPosition, easeOutCubic]
  · simp [animPosition, easeOutCubic]
  · have hprog : animProgress a a.startTime = 0 := by
      simp [animProgress]
    rw [nodePosAt, hprog]
    norm_num
    simp [animPosition, easeOutCubic]
  · intro h
    have hprog : animProgress a now = 1 := by
      simp [animProgress]
      exact h
    rw [nodePosAt, hprog]
    norm_num
  · intro hst
    have he := easeOutCubic_mono p q hp hpq hq
    have := mul_le_mul_of_nonneg_left he (by linarith : (0:ℚ) ≤ t - s)
    simp only [animPosition]
    linarith
  · intro hts
    have he := easeOutCubic_mono p q hp hpq hq
    have := mul_le_mul_of_nonneg_left he (by linarith : (0:ℚ) ≤ s - t)
    simp only [animPosition]
    nlinarith

/-- C7 witness: the easing properties evaluated on a concrete animation. -/
theorem animation_easing_witness :
    (0 : ℚ) ≤ 0 ∧ (0 : ℚ) ≤ 1 ∧ (1 : ℚ) ≤ 1 ∧
    (animPosition 0 1 0 = 0 ∧
     animPosition 0 1 1 = 1 ∧
     nodePosAt ⟨0, 0, 1, 1, 0, 1000⟩ (Anim.startTime ⟨0, 0, 1, 1, 0, 1000⟩) =
       (Anim.startX ⟨0, 0, 1, 1, 0, 1000⟩, Anim.startY ⟨0, 0, 1, 1, 0, 1000⟩) ∧
     (1 ≤ ((2000 : ℚ) - Anim.startTime ⟨0, 0, 1, 1, 0, 1000⟩) /
         Anim.duration ⟨0, 0, 1, 1, 0, 1000⟩ →
       nodePosAt ⟨0, 0, 1, 1, 0, 1000⟩ 2000 =
         (Anim.targetX ⟨0, 0, 1, 1, 0, 1000⟩, Anim.targetY ⟨0, 0, 1, 1, 0, 1000⟩)) ∧
     ((0 : ℚ) ≤ 1 → animPosition 0 1 0 ≤ animPosition 0 1 1) ∧
     ((1 : ℚ) ≤ 0 → animPosition 0 1 1 ≤ animPosition 0 1 0)) :=
  ⟨by norm_num, by norm_num, by norm_num,
    animation_easing ⟨0, 0, 1, 1, 0, 1000⟩ 0 1 0 1 2000
      (by norm_num) (by norm_num) (by norm_num)⟩

/-! ### Fallback network construction (`createFallbackNetwork` in `script.js`) -/

/-- The out-degree draw of `createFallbackNetwork` (`script.js` line 306):
`Math.floor(Math.random() * 3) + 3` for a uniform draw in `[0,1)`. -/
def numConnections (rv : ℚ) : Nat := (⌊rv * 3⌋).toNat + 3

/-- The inner connection loop of `createFallbackNetwork` (`script.js`
lines 309-318): for each drawn target, if it is not the node itself and not
already in the `connected` set, add it to the set and push the edge;
otherwise the draw is simply discarded (not retried). -/
def connectLoop (i : Nat) : List Nat → List Nat → List Edge
  | [], _ => []
  | t :: ts, connected =>
    if t ≠ i ∧ t ∉ connected then
      ⟨i, t⟩ :: connectLoop i ts (t :: connected)
    else connectLoop i ts connected

/-- The edges produced for node `i` from its list of target draws
(one draw per loop iteration, `draws.length = numConnections`). -/
def connectNode (i : Nat) (draws : List Nat) : List Edge :=
  connectLoop i draws []

theorem connectLoop_spec (i : Nat) (ts : List Nat) :
    ∀ connected : List Nat,
      (connectLoop i ts connected).length ≤ ts.length ∧
      (∀ e ∈ connectLoop i ts connected,
        e.source = i ∧ e.target ≠ i ∧ e.target ∈ ts ∧ e.target ∉ connected) ∧
      ((connectLoop i ts connected).map Edge.target).Nodup := by
  induction ts with
  | nil =>
    intro connected
    simp [connectLoop]
  | cons t ts ih =>
    intro connected
    by_cases hc : t ≠ i ∧ t ∉ connected
    · simp only [connectLoop, if_pos hc]
      obtain ⟨hlen, hmem, hnodup⟩ := ih (t :: connected)
      refine ⟨by simpa using Nat.succ_le_succ hlen, ?_, ?_⟩
      · intro e he
        rcases List.mem_cons.mp he with rfl | he'
        · exact ⟨rfl, hc.1, List.mem_cons_self t ts, hc.2⟩
        · obtain ⟨h1, h2, h3, h4⟩ := hmem e he'
          exact ⟨h1, h2, List.mem_cons_of_mem t h3,
            fun hmem2 => h4 (List.mem_cons_of_mem t hmem2)⟩
      · simp only [List.map_cons, List.nodup_cons]
        refine ⟨?_, hnodup⟩
        intro hmem2
        obtain ⟨e, he, hte⟩ := List.mem_map.mp hmem2
        obtain ⟨_, _, _, h4⟩ := hmem e he
        exact h4 (by rw [hte]; exact List.mem_cons_self t connected)
    · simp only [connectLoop, if_neg hc]
      obtain ⟨hlen, hmem, hnodup⟩ := ih connected
      refine ⟨Nat.le_succ_of_le hlen, ?_, hnodup⟩
      intro e he
      obtain ⟨h1, h2, h3, h4⟩ := hmem e he
      exact ⟨h1, h2, List.mem_cons_of_mem t h3, h4⟩

/-- C8 counterexample: a node does NOT always connect to exactly as many
distinct others as its drawn out-degree.  With out-degree 3 (draw value 0)
and target draws `[0, 1, 1]` for node 0, the self-draw and the duplicate
draw are discarded, producing a single edge instead of three. -/
theorem degree_draw_counterexample :
    numConnections 0 = 3 ∧
    ([0, 1, 1] : List Nat).length = numConnections 0 ∧
    (connectNode 0 [0, 1, 1]).length = 1 ∧
    (connectNode 0 [0, 1, 1]).length ≠ numConnections 0 := by
  have hn : numConnections 0 = 3 := by norm_num [numConnections]
  have hc : (connectNode 0 [0, 1, 1]).length = 1 := by decide
  exact ⟨hn, by simp [hn], hc, by simp [hn, hc]⟩

/-- C8 amended: every individual draws a random out-degree in 3–5 and makes
that many connection attempts; each attempt adds an edge only when the drawn
target is not the node itself and not already connected, so the node
connects to AT MOST that many others — all produced edges originate at the
node, exclude itself, and have pairwise-distinct targets. -/
theorem fallback_degree_bounds (i : Nat) (draws : List Nat) (rv : ℚ)
    (h0 : 0 ≤ rv) (h1 : rv < 1) :
    3 ≤ numConnections rv ∧ numConnections rv ≤ 5 ∧
    (connectNode i draws).length ≤ draws.length ∧
    (∀ e ∈ connectNode i draws, e.source = i ∧ e.target ≠ i ∧ e.target ∈ draws) ∧
    ((connectNode i draws).map Edge.target).Nodup := by
  obtain ⟨hlen, hmem, hnodup⟩ := connectLoop_spec i draws []
  have hf0 : (0 : ℤ) ≤ ⌊rv * 3⌋ := Int.floor_nonneg.mpr (by positivity)
  have hf3 : ⌊rv * 3⌋ < 3 := Int.floor_lt.mpr (by push_cast; linarith)
  refine ⟨?_, ?_, hlen, ?_, hnodup⟩
  · unfold numConnections
    omega
  · unfold numConnections
    omega
  · intro e he
    obtain ⟨ha, hb, hcmem, _⟩ := hmem e he
    exact ⟨ha, hb, hcmem⟩

/-- C8 amended witness: bounds and edge properties on a concrete draw. -/
theorem fallback_degree_bounds_witness :
    (0 : ℚ) ≤ 1/2 ∧ (1/2 : ℚ) < 1 ∧
    (3 ≤ numConnections (1/2) ∧ numConnections (1/2) ≤ 5 ∧
     (connectNode 0 [0, 1, 1]).length ≤ ([0, 1, 1] : List Nat).length ∧
     (∀ e ∈ connectNode 0 [0, 1, 1],
        e.source = 0 ∧ e.target ≠ 0 ∧ e.target ∈ ([0, 1, 1] : List Nat)) ∧
     ((connectNode 0 [0, 1, 1]).map Edge.target).Nodup) :=
  ⟨by norm_num, by norm_num,
    fallback_degree_bounds 0 [0, 1, 1] (1/2) (by norm_num) (by norm_num)⟩

/-! ### Reset (`resetSimulation` in `script.js`) -/

/-- The global `simulation` object of `script.js` (fields used by the local
fallback path). -/
structure Simulation where
  running : Bool
  nodes : List Node
  edges : List Edge
  step : Nat
  day : Nat
deriving DecidableEq

/-- The pieces of frontend state touched by `resetSimulation`: the
`simulation` object, the `nodeAnimations` map and the realtime chart. -/
structure AppState where
  sim : Simulation
  nodeAnimations : List (Nat × Anim)
  chart : ChartData
deriving DecidableEq

/-- `resetSimulation` (`script.js` lines 621-653), local path: stop the run,
clear all in-flight animations (`nodeAnimations.clear()`), set every node's
state to healthy and clear its saved pre-quarantine position (`originalX` /
`originalY` set to `undefined`), zero the step and day counters, and clear
the telemetry chart.  Mirroring the source, the per-node `infectionTime`
and `quarantineTime` counters are NOT touched — they are re-initialized
only by `startFallbackSimulation` on the next start. -/
def resetSimulation (st : AppState) : AppState :=
  { sim := { st.sim with
      running := false,
      step := 0,
      day := 0,
      nodes := st.sim.nodes.map fun n =>
        { n with state := NodeState.healthy, originalX := none, originalY := none } },
    nodeAnimations := [],
    chart := clearChart st.chart }

/-- A concrete mid-run state: one infected node with nonzero counters. -/
def resetDemoState : AppState :=
  { sim := { running := true,
             nodes := [⟨0, NodeState.infected, 5, 2, 0, 0, none, none⟩],
             edges := [],
             step := 9,
             day := 3 },
    nodeAnimations := [],
    chart := emptyChartData }

/-- C9 counterexample: after `resetSimulation` the node's compartment is
healthy, but its `infectionTime` and `quarantineTime` counters keep their
pre-reset values (5 and 2) instead of being zeroed — `resetSimulation`
never writes those fields. -/
theorem reset_counters_counterexample :
    (resetSimulation resetDemoState).sim.nodes.map Node.state =
      [NodeState.healthy] ∧
    (resetSimulation resetDemoState).sim.nodes.map Node.infectionTime = [5] ∧
    (resetSimulation resetDemoState).sim.nodes.map Node.quarantineTime = [2] ∧
    ([5] : List Nat) ≠ [0] := by
  refine ⟨?_, ?_, ?_, ?_⟩ <;> decide

/-- C9 amended: `resetSimulation` from any state forces the run state to
idle, zeroes step and day, clears all in-flight animations, empties the
telemetry window, and maps every individual to healthy with its saved
pre-quarantine position cleared — while leaving every other node field, in
particular the `infectionTime` and `quarantineTime` counters, unchanged. -/
theorem reset_state (st : AppState) (i : Nat) (n : Node)
    (hn : st.sim.nodes[i]? = some n) :
    (resetSimulation st).sim.running = false ∧
    (resetSimulation st).sim.step = 0 ∧
    (resetSimulation st).sim.day = 0 ∧
    (resetSimulation st).nodeAnimations = [] ∧
    (resetSimulation st).chart = emptyChartData ∧
    (resetSimulation st).chart.timestamps.length = 0 ∧
    (resetSimulation st).sim.nodes[i]? =
      some { n with state := NodeState.healthy, originalX := none,
                    originalY := none } := by
  refine ⟨rfl, rfl, rfl, rfl, rfl, rfl, ?_⟩
  simp [resetSimulation, List.getElem?_map, hn]

/-- C9 amended witness: the reset outcome on the concrete mid-run state. -/
theorem reset_state_witness :
    resetDemoState.sim.nodes[0]? =
      some ⟨0, NodeState.infected, 5, 2, 0, 0, none, none⟩ ∧
    ((resetSimulation resetDemoState).sim.running = false ∧
     (resetSimulation resetDemoState).sim.step = 0 ∧
     (resetSimulation resetDemoState).sim.day = 0 ∧
     (resetSimulation resetDemoState).nodeAnimations = [] ∧
     (resetSimulation resetDemoState).chart = emptyChartData ∧
     (resetSimulation resetDemoState).chart.timestamps.length = 0 ∧
     (resetSimulation resetDemoState).sim.nodes[0]? =
       some { (⟨0, NodeState.infected, 5, 2, 0, 0, none, none⟩ : Node) with
                state := NodeState.healthy, originalX := none,
                originalY := none }) :=
  ⟨by decide,
    reset_state resetDemoState 0 ⟨0, NodeState.infected, 5, 2, 0, 0, none, none⟩
      (by decide)⟩
